import Mathlib

/-
Shallow embedding of the softdevcan/ChatBotAssistant repository
(src/custom_functions.py and src/main.py).

Modelling conventions:
* Python strings are Lean `String`; `str.lower()` is an ASCII case map
  over the code points (adequate for the reasoning here).
* `dict.get(key)` on a request body is `Option String` (absent -> `none`).
* The Groq completion client (`get_groq_response`, which returns `None`
  when the underlying API call raises) is an explicit oracle parameter
  `provider : List Msg -> Option ProviderMsg`.
* `json.loads` applied to tool-call argument text is an oracle
  `parse : String -> Option ArgMap`; `none` models `json.JSONDecodeError`.
* The Airtable call `create_lead` (an external HTTP POST) composed with
  `json.dumps` of its result is an oracle
  `createLead : String -> String -> String -> String -> String`.
* The in-memory `conversations` dict is an association list `Store`.
-/

namespace ChatBot

/-! ### Python string primitives -/

/-- Does the character list `s` start with the character list `pat`? -/
def matchesAt : List Char → List Char → Bool
  | _, [] => true
  | [], _ :: _ => false
  | c :: cs, p :: ps => c == p && matchesAt cs ps

/-- Does `s` contain `pat` as a contiguous sublist (Python `pat in s`)? -/
def hasSubList : List Char → List Char → Bool
  | [], pat => pat.isEmpty
  | c :: cs, pat => matchesAt (c :: cs) pat || hasSubList cs pat

/-- Python `pat in s` substring test on strings. -/
def strHasSub (s pat : String) : Bool :=
  hasSubList s.toList pat.toList

/-- Python `str.lower()` (ASCII case map over the code points). -/
def pyLower (s : String) : String :=
  String.mk (s.data.map Char.toLower)

/-- Split a character list at every character satisfying `p`, keeping
empty pieces (the helper shared by the two Python split operations). -/
def splitOnPred (p : Char → Bool) : List Char → List (List Char)
  | [] => [[]]
  | c :: rest =>
    match splitOnPred p rest with
    | [] => [[]]
    | g :: gs => if p c then [] :: g :: gs else (c :: g) :: gs

/-- Python `str.split()` with no argument: split on whitespace runs,
discarding empty pieces. -/
def pySplitWhitespace (s : String) : List String :=
  ((splitOnPred Char.isWhitespace s.data).map String.mk).filter
    (fun w => w != "")

/-- Python `str.split('\n')`: split on newline, keeping empty pieces. -/
def pySplitLines (s : String) : List String :=
  (splitOnPred (fun c => c == '\n') s.data).map String.mk

/-! ### Keyword retriever (custom_functions.search_knowledge_base) -/

/-- The `for line in lines` loop of `search_knowledge_base`: collect the
lines for which some query word occurs in the lowercased line. -/
def relevantAux (query_words : List String) : List String → List String
  | [] => []
  | line :: rest =>
    if query_words.any (fun word => strHasSub (pyLower line) word) then
      line :: relevantAux query_words rest
    else
      relevantAux query_words rest

/-- Embedding of `custom_functions.search_knowledge_base` (lines 155-170):
guard on empty knowledge text, lowercase and whitespace-split the query,
scan the knowledge text line by line, and join the first 5 relevant lines. -/
def search_knowledge_base (query knowledge_content : String) : String :=
  if knowledge_content = "" then ""
  else
    let query_words := pySplitWhitespace (pyLower query)
    let lines := pySplitLines knowledge_content
    let relevant_lines := relevantAux query_words lines
    String.intercalate "\n" (relevant_lines.take 5)

/-- Spec-side relevance test (§4.2): a line is relevant iff it contains at
least one query term, case-insensitively, as a substring (the terms come
from the lowercased query, so lowercasing the line decides this). -/
def lineRelevant (terms : List String) (line : String) : Bool :=
  terms.any (fun t => strHasSub (pyLower line) t)

/-- Written from the spec's words (§4.2): lowercase the query, split on
whitespace into terms, keep exactly the relevant lines of the knowledge
text, return the first 5 in original order joined by newline, and return
the empty string when there is no knowledge text. -/
def searchSpec (query knowledgeText : String) : String :=
  if knowledgeText = "" then ""
  else
    let terms := pySplitWhitespace (pyLower query)
    String.intercalate "\n"
      (((pySplitLines knowledgeText).filter (lineRelevant terms)).take 5)

/-! ### Data model -/

/-- A tool-call request as stored by `main.chat` (id, type, function name,
raw argument text). -/
structure ToolCall where
  id : String
  type : String
  name : String
  arguments : String
deriving Repr, DecidableEq

/-- A conversation message as stored in the `conversations` dict.
`assistantCalls` is the assistant dict that carries a `tool_calls` key
(only ever appended with a non-empty call list); `assistant` is the plain
assistant dict without that key, whose content may be `None`. -/
inductive Msg where
  | system (content : String)
  | user (content : String)
  | assistant (content : Option String)
  | assistantCalls (content : String) (tool_calls : List ToolCall)
  | tool (content : String) (tool_call_id : String)
deriving Repr, DecidableEq

/-- The `role` field of a stored message dict. -/
def Msg.role : Msg → String
  | .system _ => "system"
  | .user _ => "user"
  | .assistant _ => "assistant"
  | .assistantCalls _ _ => "assistant"
  | .tool _ _ => "tool"

/-- The relevant part of `response.choices[0].message` from the completion
provider: optional text content and an optional tool-call list. -/
structure ProviderMsg where
  content : Option String
  tool_calls : Option (List ToolCall)
deriving Repr, DecidableEq

/-- A parsed tool-call argument object (`json.loads` result as a field
map; each field may be absent, `dict.get(key, '')` defaults it to ""). -/
structure ArgMap where
  name : Option String
  company_name : Option String
  phone : Option String
  email : Option String
deriving Repr, DecidableEq

/-- The assistant configuration built by `create_assistant` (the tool
schema is forwarded to the provider unchanged and never inspected by the
orchestration loop, so it is not carried here). -/
structure AssistantConfig where
  model : String
  system_prompt : String
  knowledge_base : Option String
deriving Repr, DecidableEq

/-- The in-memory `conversations` dict: thread id -> message history. -/
abbrev Store := List (String × List Msg)

/-- Dict lookup `conversations.get(tid)`. -/
def storeFind (s : Store) (tid : String) : Option (List Msg) :=
  match s with
  | [] => none
  | (k, v) :: rest => if k = tid then some v else storeFind rest tid

/-- Dict update `conversations[tid] = h` (replace if present, else add). -/
def storeSet (s : Store) (tid : String) (h : List Msg) : Store :=
  match s with
  | [] => [(tid, h)]
  | (k, v) :: rest =>
    if k = tid then (k, h) :: rest else (k, v) :: storeSet rest tid h

/-- Flask endpoint outcome for `/chat`: `ok` is a 200 `{response}` body,
`err` is an `{error}` body with its HTTP status. -/
inductive ChatResult where
  | ok (response : Option String)
  | err (message : String) (status : Nat)
deriving Repr, DecidableEq

/-- Flask endpoint outcome for `/history`. -/
inductive HistoryResult where
  | ok (history : List (String × Option String))
  | err (message : String) (status : Nat)
deriving Repr, DecidableEq

/-- Flask endpoint outcome for `/clear`. -/
inductive ApiResult where
  | ok (message : String)
  | err (message : String) (status : Nat)
deriving Repr, DecidableEq

/-! ### Orchestration loop -/

/-- `json.dumps({"error": "Invalid function arguments"})`. -/
def invalidArgsJson : String :=
  "\x7b\"error\": \"Invalid function arguments\"\x7d"

/-- The message list built by `process_message_with_assistant`
(custom_functions.py lines 184-194): a system message, then the given
conversation history (which in `chat` already ends with the stored user
message), then one more freshly appended user message; when the knowledge
base is truthy and the retriever returns a non-empty snippet, only that
freshly appended copy has the snippet spliced into its content. -/
def buildFirstMessages (message : String) (conversation_history : List Msg)
    (cfg : AssistantConfig) : List Msg :=
  let sent :=
    match cfg.knowledge_base with
    | some kb =>
      if kb = "" then message
      else
        let relevant_info := search_knowledge_base message kb
        if relevant_info = "" then message
        else
          message ++ "\n\nRelevant information from knowledge base:\n" ++
            relevant_info
    | none => message
  (Msg.system cfg.system_prompt :: conversation_history) ++ [Msg.user sent]

/-- Embedding of `custom_functions.process_message_with_assistant`:
build the outbound list and invoke the provider once. -/
def process_message_with_assistant (provider : List Msg → Option ProviderMsg)
    (message : String) (conversation_history : List Msg)
    (cfg : AssistantConfig) : Option ProviderMsg :=
  provider (buildFirstMessages message conversation_history cfg)

/-- The `for tool_call in assistant_message.tool_calls` loop of
`main.chat` (lines 91-126): the tool messages it appends, in order.
A call named `create_lead` yields the Airtable result (parse success) or
the invalid-arguments payload (`json.JSONDecodeError`); any other name
falls through the `if` with nothing appended. -/
def toolResults (parse : String → Option ArgMap)
    (createLead : String → String → String → String → String) :
    List ToolCall → List Msg
  | [] => []
  | tc :: rest =>
    (if tc.name = "create_lead" then
      match parse tc.arguments with
      | some args =>
        [Msg.tool
          (createLead (args.name.getD "") (args.company_name.getD "")
            (args.phone.getD "") (args.email.getD "")) tc.id]
      | none => [Msg.tool invalidArgsJson tc.id]
    else []) ++ toolResults parse createLead rest

/-- The message list for the second provider call (main.py lines 130-135):
a system message plus the stored history minus system-role entries. -/
def secondMessages (cfg : AssistantConfig) (history : List Msg) : List Msg :=
  Msg.system cfg.system_prompt :: history.filter (fun m => m.role != "system")

/-- One turn of the orchestration loop after the user message has been
appended (`main.chat` lines 58-157, minus the store plumbing): returns
the endpoint result and the thread history as it stands afterwards. -/
def runTurn (provider : List Msg → Option ProviderMsg)
    (parse : String → Option ArgMap)
    (createLead : String → String → String → String → String)
    (cfg : AssistantConfig) (user_input : String) (history1 : List Msg) :
    ChatResult × List Msg :=
  match process_message_with_assistant provider user_input history1 cfg with
  | none => (.err "Failed to get response from assistant" 500, history1)
  | some am =>
    match am.tool_calls with
    | some (tc :: rest) =>
      let calls := tc :: rest
      let history3 :=
        (history1 ++ [Msg.assistantCalls (am.content.getD "") calls]) ++
          toolResults parse createLead calls
      match provider (secondMessages cfg history3) with
      | some fm => (.ok fm.content, history3 ++ [Msg.assistant fm.content])
      | none => (.err "Failed to get final response" 500, history3)
    | _ => (.ok am.content, history1 ++ [Msg.assistant am.content])

/-- Embedding of the `/chat` endpoint (`main.chat`): request-body fields
arrive as `Option String` (`data.get`); a falsy (`None` or empty) thread
id is "Missing thread_id", an unknown one "Invalid thread_id"; otherwise
the user message is appended and the turn runs. -/
def chat (provider : List Msg → Option ProviderMsg)
    (parse : String → Option ArgMap)
    (createLead : String → String → String → String → String)
    (cfg : AssistantConfig) (conversations : Store)
    (thread_id : Option String) (message : Option String) :
    ChatResult × Store :=
  let user_input := message.getD ""
  match thread_id with
  | none => (.err "Missing thread_id" 400, conversations)
  | some tid =>
    if tid = "" then (.err "Missing thread_id" 400, conversations)
    else
      match storeFind conversations tid with
      | none => (.err "Invalid thread_id" 400, conversations)
      | some history0 =>
        let r := runTurn provider parse createLead cfg user_input
          (history0 ++ [Msg.user user_input])
        (r.1, storeSet conversations tid r.2)

/-! ### The other endpoints -/

/-- Embedding of `/start` (`main.start_conversation`): the fresh uuid is
an input; the thread is initialised to the empty history. -/
def start_conversation (conversations : Store) (new_id : String) :
    String × Store :=
  (new_id, storeSet conversations new_id [])

/-- The history projection loop of `main.get_history` (lines 174-180):
keep `user`/`assistant` dicts without a `tool_calls` key, reduced to
(role, content). -/
def historyView : List Msg → List (String × Option String)
  | [] => []
  | m :: rest =>
    (match m with
     | Msg.user c => [("user", some c)]
     | Msg.assistant c => [("assistant", c)]
     | _ => []) ++ historyView rest

/-- Embedding of the `/history` endpoint (`main.get_history`). -/
def get_history (conversations : Store) (thread_id : Option String) :
    HistoryResult :=
  match thread_id with
  | none => .err "Invalid thread_id" 400
  | some tid =>
    if tid = "" then .err "Invalid thread_id" 400
    else
      match storeFind conversations tid with
      | none => .err "Invalid thread_id" 400
      | some msgs => .ok (historyView msgs)

/-- Embedding of the `/clear` endpoint (`main.clear_conversation`). -/
def clear_conversation (conversations : Store) (thread_id : Option String) :
    ApiResult × Store :=
  match thread_id with
  | none => (.err "Missing thread_id" 400, conversations)
  | some tid =>
    if tid = "" then (.err "Missing thread_id" 400, conversations)
    else
      match storeFind conversations tid with
      | some _ => (.ok "Conversation cleared", storeSet conversations tid [])
      | none => (.err "Invalid thread_id" 400, conversations)

/-- Conversation stores reachable through the endpoints, starting from the
empty process-start store. The provider, the argument parser and the lead
sink are external collaborators, so every `/chat` step may see arbitrary
behaviour from them; `/start`'s uuid is likewise an arbitrary input. The
assistant configuration is fixed for the process lifetime. -/
inductive Reachable (cfg : AssistantConfig) : Store → Prop where
  | init : Reachable cfg []
  | startStep (s : Store) (tid : String) (h : Reachable cfg s) :
      Reachable cfg (start_conversation s tid).2
  | chatStep (s : Store) (provider : List Msg → Option ProviderMsg)
      (parse : String → Option ArgMap)
      (createLead : String → String → String → String → String)
      (tid msg : Option String) (h : Reachable cfg s) :
      Reachable cfg (chat provider parse createLead cfg s tid msg).2
  | clearStep (s : Store) (tid : Option String) (h : Reachable cfg s) :
      Reachable cfg (clear_conversation s tid).2

/-! ### Spec-side definitions used to state the claims -/

/-- Written from the spec's words (§4.4 step 4): the text of the extra
outbound user message — the user text, with the labeled retrieved snippet
appended when knowledge text is present and the retriever returns a
non-empty result. -/
def augmentedUserText (message : String) (cfg : AssistantConfig) : String :=
  match cfg.knowledge_base with
  | some kb =>
    if kb = "" then message
    else if search_knowledge_base message kb = "" then message
    else
      message ++ "\n\nRelevant information from knowledge base:\n" ++
        search_knowledge_base message kb
  | none => message

/-- How many messages of a list are a `user` message with the given text. -/
def userCount (text : String) : List Msg → Nat
  | [] => 0
  | Msg.user c :: rest => (if c = text then 1 else 0) + userCount text rest
  | _ :: rest => userCount text rest

/-- Does this stored message dict carry a `tool_calls` key? -/
def hasPendingCalls : Msg → Bool
  | .assistantCalls _ _ => true
  | _ => false

/-- Spec-side selection for `/history` (§6): `user`/`assistant` entries
without pending tool calls. -/
def keepInHistory (m : Msg) : Bool :=
  (m.role == "user" || m.role == "assistant") && !(hasPendingCalls m)

/-- Spec-side reduction for `/history` (§6): a message reduced to its
(role, content) pair. -/
def reducedEntry (m : Msg) : String × Option String :=
  (m.role,
   match m with
   | .system c => some c
   | .user c => some c
   | .assistant c => c
   | .assistantCalls c _ => some c
   | .tool c _ => some c)

/-! ### The tool-message placement invariant (claim C6) -/

/-- Membership of a call id in a list of ids, as a boolean. -/
def idMem (x : String) : List String → Bool
  | [] => false
  | y :: ys => x == y || idMem x ys

/-- Literal reading of the claimed invariant: every `tool` message sits
immediately after the `assistant` message among whose tool-call ids its
own call id appears. `prev` is the directly preceding message. -/
def toolOkAt (prev : Option Msg) : List Msg → Bool
  | [] => true
  | m :: rest =>
    (match m with
     | Msg.tool _ cid =>
       match prev with
       | some (Msg.assistantCalls _ calls) => idMem cid (calls.map ToolCall.id)
       | _ => false
     | _ => true) && toolOkAt (some m) rest

/-- Literal reading of C6 on a whole history. -/
def literalInv (h : List Msg) : Bool := toolOkAt none h

/-- Scan state for the amended invariant: `some ids` while inside the
contiguous tool-message block following an assistant message carrying
tool calls with those ids, `none` otherwise. -/
def blockOk (pending : Option (List String)) : List Msg → Bool
  | [] => true
  | Msg.system _ :: rest => blockOk none rest
  | Msg.user _ :: rest => blockOk none rest
  | Msg.assistant _ :: rest => blockOk none rest
  | Msg.assistantCalls _ calls :: rest =>
    blockOk (some (calls.map ToolCall.id)) rest
  | Msg.tool _ cid :: rest =>
    (match pending with
     | some ids => idMem cid ids
     | none => false) && blockOk pending rest

/-- The scan state left behind by a message list. -/
def blockState (pending : Option (List String)) :
    List Msg → Option (List String)
  | [] => pending
  | Msg.system _ :: rest => blockState none rest
  | Msg.user _ :: rest => blockState none rest
  | Msg.assistant _ :: rest => blockState none rest
  | Msg.assistantCalls _ calls :: rest =>
    blockState (some (calls.map ToolCall.id)) rest
  | Msg.tool _ _ :: rest => blockState pending rest

/-- Amended invariant of C6: every `tool` message lies in the contiguous
run of tool messages directly following the `assistant` message whose
tool-call id list contains its call id. -/
def blockInv (h : List Msg) : Bool := blockOk none h

/-! ### Concrete fixtures for witnesses and counterexamples -/

/-- A process configuration without knowledge text. -/
def cfg0 : AssistantConfig :=
  ⟨"llama-3.3-70b-versatile", "You are the Academy Club assistant.", none⟩

/-- A process configuration with a small knowledge text. -/
def cfgK : AssistantConfig :=
  ⟨"llama-3.3-70b-versatile", "You are the Academy Club assistant.",
    some "alpha line\nbeta"⟩

/-- A `create_lead` call with parseable arguments. -/
def tcA : ToolCall := ⟨"c1", "function", "create_lead", "\x7b\x7d"⟩

/-- A second `create_lead` call with parseable arguments. -/
def tcB : ToolCall := ⟨"c2", "function", "create_lead", "\x7b\x7d"⟩

/-- A call whose tool name is not `create_lead`. -/
def tcU : ToolCall := ⟨"c9", "function", "other_tool", "\x7b\x7d"⟩

/-- A `create_lead` call whose argument text is not parseable. -/
def tcJ : ToolCall := ⟨"c3", "function", "create_lead", "not json"⟩

/-- A JSON parser oracle that always succeeds with an empty field map. -/
def parse0 : String → Option ArgMap := fun _ => some ⟨none, none, none, none⟩

/-- A JSON parser oracle that always fails (`json.JSONDecodeError`). -/
def parseNone : String → Option ArgMap := fun _ => none

/-- A lead sink oracle returning a fixed serialized result. -/
def lead0 : String → String → String → String → String :=
  fun _ _ _ _ => "\"ok\""

/-- A provider oracle whose call always fails. -/
def pFail : List Msg → Option ProviderMsg := fun _ => none

/-- A provider oracle requesting two `create_lead` calls on the first
round (the outbound list of a first round carries no assistant message
with tool calls) and answering plainly on the second. -/
def provider2 : List Msg → Option ProviderMsg := fun msgs =>
  if msgs.any hasPendingCalls then some ⟨some "done", none⟩
  else some ⟨some "", some [tcA, tcB]⟩

/-- A provider oracle requesting one call with an unrecognized tool name,
then answering plainly. -/
def providerU : List Msg → Option ProviderMsg := fun msgs =>
  if msgs.any hasPendingCalls then some ⟨some "done", none⟩
  else some ⟨some "", some [tcU]⟩

/-- A provider oracle requesting one `create_lead` call with unparseable
arguments, then answering plainly. -/
def providerC3 : List Msg → Option ProviderMsg := fun msgs =>
  if msgs.any hasPendingCalls then some ⟨some "final", none⟩
  else some ⟨some "", some [tcJ]⟩

/-- A provider oracle requesting one `create_lead` call and then failing
on the second round. -/
def providerC4 : List Msg → Option ProviderMsg := fun msgs =>
  if msgs.any hasPendingCalls then none
  else some ⟨some "", some [tcA]⟩

/-- A store with one known, empty thread. -/
def s0 : Store := [("t", [])]

/-- A store with one thread holding one message of every role. -/
def s9 : Store :=
  [("t", [Msg.system "sp", Msg.user "a", Msg.assistantCalls "x" [tcA],
    Msg.tool "\"ok\"" "c1", Msg.assistant (some "b")])]

/-- The store reached by `/start` then one `/chat` turn in which the
provider requests two `create_lead` calls. -/
def c6DemoStore : Store :=
  (chat provider2 parse0 lead0 cfg0 (start_conversation [] "t").2
    (some "t") (some "hi")).2

/-- The history stored for thread "t" in `c6DemoStore`. -/
def c6DemoHist : List Msg :=
  [Msg.user "hi", Msg.assistantCalls "" [tcA, tcB],
   Msg.tool "\"ok\"" "c1", Msg.tool "\"ok\"" "c2",
   Msg.assistant (some "done")]

/-! ### Helper lemmas -/

theorem relevantAux_eq_filter (ws : List String) (lines : List String) :
    relevantAux ws lines = lines.filter (lineRelevant ws) := by
  induction lines with
  | nil => rfl
  | cons line rest ih =>
    by_cases h : ws.any (fun word => strHasSub (pyLower line) word) = true
    · simp [relevantAux, List.filter, lineRelevant, h, ih]
    · simp [relevantAux, List.filter, lineRelevant, h, ih]

theorem storeFind_set (s : Store) (k : String) (v : List Msg) (t : String) :
    storeFind (storeSet s k v) t =
      if k = t then some v else storeFind s t := by
  induction s with
  | nil => rfl
  | cons hd tl ih =>
    obtain ⟨k', v'⟩ := hd
    by_cases hk : k' = k
    · subst hk
      by_cases ht : k' = t
      · simp [storeSet, storeFind, ht]
      · simp [storeSet, storeFind, ht]
    · by_cases ht : k' = t
      · subst ht
        have : ¬ k = k' := fun h => hk h.symm
        simp [storeSet, storeFind, hk, this]
      · simp [storeSet, storeFind, hk, ht, ih]

theorem idMem_of_mem {x : String} {l : List String} (h : x ∈ l) :
    idMem x l = true := by
  induction l with
  | nil => cases h
  | cons y ys ih =>
    rcases List.mem_cons.mp h with h1 | h2
    · simp [idMem, h1]
    · simp [idMem, ih h2]

theorem blockOk_append (p : Option (List String)) (xs ys : List Msg) :
    blockOk p (xs ++ ys) = (blockOk p xs && blockOk (blockState p xs) ys) := by
  induction xs generalizing p with
  | nil => simp [blockOk, blockState]
  | cons m rest ih =>
    cases m <;> simp [blockOk, blockState, ih, Bool.and_assoc]

theorem blockState_append (p : Option (List String)) (xs ys : List Msg) :
    blockState p (xs ++ ys) = blockState (blockState p xs) ys := by
  induction xs generalizing p with
  | nil => rfl
  | cons m rest ih =>
    cases m <;> simp [blockState, ih]

theorem blockOk_toolResults (parse : String → Option ArgMap)
    (createLead : String → String → String → String → String)
    (calls : List ToolCall) (ids : List String)
    (hids : ∀ tc ∈ calls, idMem tc.id ids = true) :
    blockOk (some ids) (toolResults parse createLead calls) = true := by
  induction calls with
  | nil => rfl
  | cons tc rest ih =>
    have htc := hids tc (by simp)
    have hrest : ∀ tc' ∈ rest, idMem tc'.id ids = true :=
      fun tc' h' => hids tc' (by simp [h'])
    by_cases hn : tc.name = "create_lead"
    · cases hp : parse tc.arguments with
      | some args => simp [toolResults, hn, hp, blockOk, htc, ih hrest]
      | none => simp [toolResults, hn, hp, blockOk, htc, ih hrest]
    · simp [toolResults, hn, ih hrest]

theorem toolResults_roles (parse : String → Option ArgMap)
    (createLead : String → String → String → String → String)
    (calls : List ToolCall) :
    ∀ m ∈ toolResults parse createLead calls, Msg.role m = "tool" := by
  induction calls with
  | nil => intro m hm; simp [toolResults] at hm
  | cons tc rest ih =>
    intro m hm
    simp only [toolResults] at hm
    rcases List.mem_append.mp hm with h | h
    · by_cases hn : tc.name = "create_lead"
      · rw [if_pos hn] at h
        cases hp : parse tc.arguments with
        | some args => rw [hp] at h; simp at h; subst h; rfl
        | none => rw [hp] at h; simp at h; subst h; rfl
      · rw [if_neg hn] at h; simp at h
    · exact ih m h

theorem mem_toolResults_invalid (parse : String → Option ArgMap)
    (createLead : String → String → String → String → String)
    {calls : List ToolCall} {tc : ToolCall}
    (htc : tc ∈ calls) (hname : tc.name = "create_lead")
    (hparse : parse tc.arguments = none) :
    Msg.tool invalidArgsJson tc.id ∈ toolResults parse createLead calls := by
  induction calls with
  | nil => cases htc
  | cons hd rest ih =>
    simp only [toolResults]
    rcases List.mem_cons.mp htc with h1 | h2
    · subst h1
      exact List.mem_append.mpr (Or.inl (by simp [hname, hparse]))
    · exact List.mem_append.mpr (Or.inr (ih h2))

theorem runTurn_history_shape (provider : List Msg → Option ProviderMsg)
    (parse : String → Option ArgMap)
    (createLead : String → String → String → String → String)
    (cfg : AssistantConfig) (u : String) (h1 : List Msg) :
    ∃ rest, (runTurn provider parse createLead cfg u h1).2 = h1 ++ rest ∧
      ∀ m ∈ rest, Msg.role m ≠ "user" := by
  cases hp : process_message_with_assistant provider u h1 cfg with
  | none => exact ⟨[], by simp [runTurn, hp], by simp⟩
  | some am =>
    cases htc : am.tool_calls with
    | none =>
      exact ⟨[Msg.assistant am.content], by simp [runTurn, hp, htc],
        by simp [Msg.role]⟩
    | some calls =>
      cases calls with
      | nil =>
        exact ⟨[Msg.assistant am.content], by simp [runTurn, hp, htc],
          by simp [Msg.role]⟩
      | cons tc rest0 =>
        cases hf : provider (secondMessages cfg
            ((h1 ++ [Msg.assistantCalls (am.content.getD "") (tc :: rest0)]) ++
              toolResults parse createLead (tc :: rest0))) with
        | some fm =>
          refine ⟨[Msg.assistantCalls (am.content.getD "") (tc :: rest0)] ++
            toolResults parse createLead (tc :: rest0) ++
            [Msg.assistant fm.content],
            by simp only [runTurn, hp, htc, hf]; simp, ?_⟩
          intro m hm
          rcases List.mem_append.mp hm with hm1 | hm2
          · rcases List.mem_append.mp hm1 with hm3 | hm4
            · simp at hm3; subst hm3; simp [Msg.role]
            · rw [toolResults_roles parse createLead _ m hm4]; simp
          · simp at hm2; subst hm2; simp [Msg.role]
        | none =>
          refine ⟨[Msg.assistantCalls (am.content.getD "") (tc :: rest0)] ++
            toolResults parse createLead (tc :: rest0),
            by simp only [runTurn, hp, htc, hf]; simp, ?_⟩
          intro m hm
          rcases List.mem_append.mp hm with hm1 | hm2
          · simp at hm1; subst hm1; simp [Msg.role]
          · rw [toolResults_roles parse createLead _ m hm2]; simp

theorem chat_snd_shape (provider : List Msg → Option ProviderMsg)
    (parse : String → Option ArgMap)
    (createLead : String → String → String → String → String)
    (cfg : AssistantConfig) (s : Store) (tidO msgO : Option String) :
    (chat provider parse createLead cfg s tidO msgO).2 = s ∨
    ∃ tid h0, tidO = some tid ∧ storeFind s tid = some h0 ∧
      (chat provider parse createLead cfg s tidO msgO).2 =
        storeSet s tid (runTurn provider parse createLead cfg (msgO.getD "")
          (h0 ++ [Msg.user (msgO.getD "")])).2 := by
  cases tidO with
  | none => left; rfl
  | some tid =>
    by_cases h : tid = ""
    · left; simp [chat, h]
    · cases hf : storeFind s tid with
      | none => left; simp [chat, h, hf]
      | some h0 =>
        right
        exact ⟨tid, h0, rfl, hf, by simp [chat, h, hf]⟩

theorem clear_snd_shape (s : Store) (tidO : Option String) :
    (clear_conversation s tidO).2 = s ∨
    ∃ tid, (clear_conversation s tidO).2 = storeSet s tid [] := by
  cases tidO with
  | none => left; rfl
  | some tid =>
    by_cases h : tid = ""
    · left; simp [clear_conversation, h]
    · cases hf : storeFind s tid with
      | none => left; simp [clear_conversation, h, hf]
      | some h0 => right; exact ⟨tid, by simp [clear_conversation, h, hf]⟩

theorem runTurn_no_400 (provider : List Msg → Option ProviderMsg)
    (parse : String → Option ArgMap)
    (createLead : String → String → String → String → String)
    (cfg : AssistantConfig) (u : String) (h1 : List Msg)
    (m : String) (st : Nat)
    (h : (runTurn provider parse createLead cfg u h1).1 =
      ChatResult.err m st) : st = 500 := by
  cases hp : process_message_with_assistant provider u h1 cfg with
  | none => simp [runTurn, hp] at h; exact h.2.symm
  | some am =>
    cases htc : am.tool_calls with
    | none => simp [runTurn, hp, htc] at h
    | some calls =>
      cases calls with
      | nil => simp [runTurn, hp, htc] at h
      | cons tc rest0 =>
        cases hf : provider (secondMessages cfg
            ((h1 ++ [Msg.assistantCalls (am.content.getD "") (tc :: rest0)]) ++
              toolResults parse createLead (tc :: rest0))) with
        | some fm => simp only [runTurn, hp, htc, hf] at h; simp at h
        | none =>
          simp only [runTurn, hp, htc, hf] at h
          simp at h; exact h.2.symm

theorem userCount_append (text : String) (xs ys : List Msg) :
    userCount text (xs ++ ys) = userCount text xs + userCount text ys := by
  induction xs with
  | nil => simp [userCount]
  | cons m rest ih =>
    cases m <;> simp [userCount, ih] <;> omega

/-! ### Claim C5 -/

/-- C5: `search_knowledge_base` lowercases the query and splits it on
whitespace into terms, scans the knowledge text line by line, keeps
exactly the lines containing at least one term case-insensitively as a
substring, and returns the first 5 such lines in original order joined by
newline; it returns the empty string when the knowledge text is empty or
no line matches (both are exactly what `searchSpec`, written from the
spec's words, computes). -/
theorem c5_search_matches_spec (q k : String) :
    search_knowledge_base q k = searchSpec q k := by
  unfold search_knowledge_base searchSpec
  by_cases h : k = ""
  · simp [h]
  · simp [h, relevantAux_eq_filter]

/-! ### Claim C7 -/

/-- C7: a `/chat` request whose thread id is missing or not present in
the conversation store returns HTTP 400 and leaves the store completely
unchanged. -/
theorem c7_invalid_thread_rejected (provider : List Msg → Option ProviderMsg)
    (parse : String → Option ArgMap)
    (createLead : String → String → String → String → String)
    (cfg : AssistantConfig) (s : Store) (tidO msgO : Option String)
    (h : tidO = none ∨ ∃ t, tidO = some t ∧ storeFind s t = none) :
    (chat provider parse createLead cfg s tidO msgO).2 = s ∧
    ∃ m, (chat provider parse createLead cfg s tidO msgO).1 =
      ChatResult.err m 400 := by
  rcases h with h | ⟨t, rfl, hf⟩
  · subst h
    exact ⟨rfl, "Missing thread_id", rfl⟩
  · by_cases ht : t = ""
    · exact ⟨by simp [chat, ht], "Missing thread_id", by simp [chat, ht]⟩
    · exact ⟨by simp [chat, ht, hf], "Invalid thread_id",
        by simp [chat, ht, hf]⟩

theorem c7_invalid_thread_rejected_witness :
    (chat pFail parse0 lead0 cfg0 s0 (some "u") none).2 = s0 ∧
    ∃ m, (chat pFail parse0 lead0 cfg0 s0 (some "u") none).1 =
      ChatResult.err m 400 :=
  c7_invalid_thread_rejected pFail parse0 lead0 cfg0 s0 (some "u") none
    (Or.inr ⟨"u", rfl, by decide⟩)

/-! ### Claim C1 -/

/-- C1 counterexample: with an empty prior history on thread "t" and user
text "hi", the stored history already ends with the user message, yet the
message list handed to the provider on the first call is the system
message, that history, and then a second copy of the user message — not
"exactly one system message followed by the history with each message
appearing exactly once". -/
theorem c1_counterexample :
    buildFirstMessages "hi" ([] ++ [Msg.user "hi"]) cfg0 =
      [Msg.system cfg0.system_prompt, Msg.user "hi", Msg.user "hi"] ∧
    buildFirstMessages "hi" ([] ++ [Msg.user "hi"]) cfg0 ≠
      Msg.system cfg0.system_prompt :: ([] ++ [Msg.user "hi"]) := by
  exact ⟨by decide, by decide⟩

/-- C1 (amended): the first-call message list is one system message with
the configured prompt, the thread's full stored history in order, and
then one additional user message carrying the user text (knowledge-
augmented when applicable); since the stored history already ends with
the user message for that text, the user message is sent twice — when no
knowledge augmentation applies, exactly twice beyond its occurrences in
the prior history. -/
theorem c1_first_call_message_list (cfg : AssistantConfig) (msg : String)
    (h0 : List Msg) :
    buildFirstMessages msg (h0 ++ [Msg.user msg]) cfg =
      (Msg.system cfg.system_prompt :: (h0 ++ [Msg.user msg])) ++
        [Msg.user (augmentedUserText msg cfg)] ∧
    (cfg.knowledge_base = none →
      userCount msg (buildFirstMessages msg (h0 ++ [Msg.user msg]) cfg) =
        userCount msg h0 + 2) := by
  constructor
  · unfold buildFirstMessages augmentedUserText
    cases cfg.knowledge_base with
    | none => rfl
    | some kb =>
      by_cases hkb : kb = ""
      · simp [hkb]
      · by_cases hsearch : search_knowledge_base msg kb = ""
        · simp [hkb, hsearch]
        · simp [hkb, hsearch]
  · intro hnone
    unfold buildFirstMessages
    rw [hnone]
    rw [List.cons_append, List.append_assoc]
    show userCount msg (h0 ++ ([Msg.user msg] ++ [Msg.user msg])) = _
    rw [userCount_append]
    simp [userCount]

theorem c1_first_call_message_list_witness :
    userCount "hi" (buildFirstMessages "hi" ([] ++ [Msg.user "hi"]) cfg0) =
      userCount "hi" ([] : List Msg) + 2 :=
  (c1_first_call_message_list cfg0 "hi" []).2 rfl

/-! ### Claim C2 -/

/-- C2 counterexample: a turn in which the provider requests one call for
the unrecognized tool name "other_tool" (call id "c9") completes with a
history that contains no `tool` message at all — in particular no
`tool` message with the invalid-arguments payload bound to "c9", contrary
to the claim. -/
theorem c2_counterexample :
    storeFind (chat providerU parse0 lead0 cfg0 s0 (some "t")
        (some "hi")).2 "t" =
      some [Msg.user "hi", Msg.assistantCalls "" [tcU],
        Msg.assistant (some "done")] ∧
    Msg.tool invalidArgsJson "c9" ∉
      [Msg.user "hi", Msg.assistantCalls "" [tcU],
        Msg.assistant (some "done")] := by
  exact ⟨by decide, by decide⟩

/-- C2 (amended): every tool-call request whose tool name is not
`create_lead` is skipped entirely, also inside a mixed batch — the loop
appends exactly the tool messages of the batch restricted to its
`create_lead` requests, and every appended tool message is bound to the
call id of one of the `create_lead` requests. -/
theorem c2_unknown_tool_skipped (parse : String → Option ArgMap)
    (createLead : String → String → String → String → String)
    (calls : List ToolCall) :
    toolResults parse createLead calls =
      toolResults parse createLead
        (calls.filter (fun tc => tc.name == "create_lead")) ∧
    ∀ m ∈ toolResults parse createLead calls,
      ∃ tc ∈ calls, tc.name = "create_lead" ∧
        ∃ content, m = Msg.tool content tc.id := by
  induction calls with
  | nil => exact ⟨rfl, by simp [toolResults]⟩
  | cons tc rest ih =>
    constructor
    · by_cases hn : tc.name = "create_lead"
      · have : (tc :: rest).filter (fun tc => tc.name == "create_lead") =
            tc :: rest.filter (fun tc => tc.name == "create_lead") := by
          simp [List.filter_cons, hn]
        rw [this]
        simp only [toolResults]
        rw [ih.1]
      · have : (tc :: rest).filter (fun tc => tc.name == "create_lead") =
            rest.filter (fun tc => tc.name == "create_lead") := by
          simp [List.filter_cons, hn]
        rw [this]
        simp only [toolResults, if_neg hn, List.nil_append]
        exact ih.1
    · intro m hm
      simp only [toolResults] at hm
      rcases List.mem_append.mp hm with hm1 | hm2
      · by_cases hn : tc.name = "create_lead"
        · rw [if_pos hn] at hm1
          refine ⟨tc, by simp, hn, ?_⟩
          cases hp : parse tc.arguments with
          | some args => rw [hp] at hm1; simp at hm1; exact ⟨_, hm1⟩
          | none => rw [hp] at hm1; simp at hm1; exact ⟨_, hm1⟩
        · rw [if_neg hn] at hm1; simp at hm1
      · obtain ⟨tc', htc', hn', content, hc⟩ := ih.2 m hm2
        exact ⟨tc', by simp [htc'], hn', content, hc⟩

/-- C2 witness: in the mixed batch of an unrecognized call followed by a
`create_lead` call, the unrecognized request contributes nothing and the
single appended tool message is bound to the `create_lead` call id. -/
theorem c2_unknown_tool_skipped_witness :
    toolResults parse0 lead0 [tcU, tcA] =
      toolResults parse0 lead0
        ([tcU, tcA].filter (fun tc => tc.name == "create_lead")) ∧
    ∃ tc ∈ [tcU, tcA], tc.name = "create_lead" ∧
      ∃ content, Msg.tool "\"ok\"" "c1" = Msg.tool content tc.id :=
  ⟨(c2_unknown_tool_skipped parse0 lead0 [tcU, tcA]).1,
   (c2_unknown_tool_skipped parse0 lead0 [tcU, tcA]).2
     (Msg.tool "\"ok\"" "c1") (by decide)⟩

/-! ### Claim C3 -/

/-- C3: when the provider's first reply requests a `create_lead` call
whose raw argument text is not parseable, the turn appends a `tool`
message with the invalid-arguments payload bound to that call id, still
processes the whole request batch, and — when the second provider call
succeeds — completes with the final assistant reply. -/
theorem c3_malformed_args_handled_inline
    (provider : List Msg → Option ProviderMsg)
    (parse : String → Option ArgMap)
    (createLead : String → String → String → String → String)
    (cfg : AssistantConfig) (s : Store) (t : String) (h0 : List Msg)
    (msg : String) (c : Option String) (calls : List ToolCall)
    (tc : ToolCall) (fm : ProviderMsg)
    (ht : t ≠ "") (hf : storeFind s t = some h0)
    (h1 : provider (buildFirstMessages msg (h0 ++ [Msg.user msg]) cfg) =
      some ⟨c, some calls⟩)
    (hne : calls ≠ [])
    (htc : tc ∈ calls) (hname : tc.name = "create_lead")
    (hparse : parse tc.arguments = none)
    (h2 : provider (secondMessages cfg
      (((h0 ++ [Msg.user msg]) ++
        [Msg.assistantCalls (c.getD "") calls]) ++
        toolResults parse createLead calls)) = some fm) :
    Msg.tool invalidArgsJson tc.id ∈ toolResults parse createLead calls ∧
    (chat provider parse createLead cfg s (some t) (some msg)).1 =
      ChatResult.ok fm.content ∧
    storeFind (chat provider parse createLead cfg s (some t) (some msg)).2
        t =
      some ((((h0 ++ [Msg.user msg]) ++
        [Msg.assistantCalls (c.getD "") calls]) ++
        toolResults parse createLead calls) ++ [Msg.assistant fm.content]) := by
  obtain ⟨tc0, rest0, rfl⟩ : ∃ a b, calls = a :: b := by
    cases calls with
    | nil => exact absurd rfl hne
    | cons a b => exact ⟨a, b, rfl⟩
  refine ⟨mem_toolResults_invalid parse createLead htc hname hparse, ?_, ?_⟩
  · simp only [chat, if_neg ht, hf, Option.getD_some,
      runTurn, process_message_with_assistant, h1, h2]
  · simp only [chat, if_neg ht, hf, Option.getD_some,
      runTurn, process_message_with_assistant, h1, h2]
    rw [storeFind_set, if_pos rfl]

/-- C3 witness: concrete turn with one `create_lead` call whose argument
text fails to parse; the turn ends in the provider's final reply. -/
theorem c3_malformed_args_handled_inline_witness :
    Msg.tool invalidArgsJson tcJ.id ∈ toolResults parseNone lead0 [tcJ] ∧
    (chat providerC3 parseNone lead0 cfg0 s0 (some "t") (some "hi")).1 =
      ChatResult.ok (some "final") :=
  have h := c3_malformed_args_handled_inline providerC3 parseNone lead0
    cfg0 s0 "t" [] "hi" (some "") [tcJ] tcJ ⟨some "final", none⟩
    (by decide) (by decide) (by decide) (by decide) (by decide) (by decide)
    (by decide) (by decide)
  ⟨h.1, h.2.1⟩

/-! ### Claim C4 -/

/-- C4: when tool calls were resolved but the second provider call fails,
the turn returns the 500 provider error while the thread keeps the user
message, the assistant message carrying the tool-call requests and every
tool-result message, with no final assistant message appended. -/
theorem c4_second_call_failure_retains_history
    (provider : List Msg → Option ProviderMsg)
    (parse : String → Option ArgMap)
    (createLead : String → String → String → String → String)
    (cfg : AssistantConfig) (s : Store) (t : String) (h0 : List Msg)
    (msg : String) (c : Option String) (calls : List ToolCall)
    (ht : t ≠ "") (hf : storeFind s t = some h0)
    (h1 : provider (buildFirstMessages msg (h0 ++ [Msg.user msg]) cfg) =
      some ⟨c, some calls⟩)
    (hne : calls ≠ [])
    (h2 : provider (secondMessages cfg
      (((h0 ++ [Msg.user msg]) ++
        [Msg.assistantCalls (c.getD "") calls]) ++
        toolResults parse createLead calls)) = none) :
    (chat provider parse createLead cfg s (some t) (some msg)).1 =
      ChatResult.err "Failed to get final response" 500 ∧
    storeFind (chat provider parse createLead cfg s (some t) (some msg)).2
        t =
      some (((h0 ++ [Msg.user msg]) ++
        [Msg.assistantCalls (c.getD "") calls]) ++
        toolResults parse createLead calls) := by
  obtain ⟨tc0, rest0, rfl⟩ : ∃ a b, calls = a :: b := by
    cases calls with
    | nil => exact absurd rfl hne
    | cons a b => exact ⟨a, b, rfl⟩
  constructor
  · simp only [chat, if_neg ht, hf, Option.getD_some,
      runTurn, process_message_with_assistant, h1, h2]
  · simp only [chat, if_neg ht, hf, Option.getD_some,
      runTurn, process_message_with_assistant, h1, h2]
    rw [storeFind_set, if_pos rfl]

/-- C4 witness: concrete turn with one resolved `create_lead` call and a
failing second provider call. -/
theorem c4_second_call_failure_retains_history_witness :
    (chat providerC4 parse0 lead0 cfg0 s0 (some "t") (some "hi")).1 =
      ChatResult.err "Failed to get final response" 500 :=
  (c4_second_call_failure_retains_history providerC4 parse0 lead0 cfg0 s0
    "t" [] "hi" (some "") [tcA] (by decide) (by decide) (by decide)
    (by decide) (by decide)).1

theorem runTurn_blockOk (provider : List Msg → Option ProviderMsg)
    (parse : String → Option ArgMap)
    (createLead : String → String → String → String → String)
    (cfg : AssistantConfig) (u : String) (h1 : List Msg)
    (h : blockOk none h1 = true) :
    blockOk none (runTurn provider parse createLead cfg u h1).2 = true := by
  cases hp : process_message_with_assistant provider u h1 cfg with
  | none => simpa [runTurn, hp] using h
  | some am =>
    cases htc : am.tool_calls with
    | none => simp [runTurn, hp, htc, blockOk_append, h, blockOk]
    | some calls =>
      cases calls with
      | nil => simp [runTurn, hp, htc, blockOk_append, h, blockOk]
      | cons tc rest0 =>
        have hids : ∀ tc' ∈ tc :: rest0,
            idMem tc'.id ((tc :: rest0).map ToolCall.id) = true :=
          fun tc' h' => idMem_of_mem (List.mem_map_of_mem ToolCall.id h')
        have hblock := blockOk_toolResults parse createLead (tc :: rest0)
          ((tc :: rest0).map ToolCall.id) hids
        simp only [List.map_cons] at hblock
        cases hf : provider (secondMessages cfg
            ((h1 ++ [Msg.assistantCalls (am.content.getD "") (tc :: rest0)]) ++
              toolResults parse createLead (tc :: rest0))) with
        | some fm =>
          simp only [runTurn, hp, htc, hf]
          rw [List.append_assoc, List.append_assoc, blockOk_append]
          simp [blockOk, blockOk_append, h, hblock]
        | none =>
          simp only [runTurn, hp, htc, hf]
          rw [List.append_assoc, blockOk_append]
          simp [blockOk, h, hblock]

/-! ### Claim C8 -/

/-- C8: when knowledge text is present and the retriever returns a
non-empty snippet for the user text, the snippet is appended, labeled,
only to the extra outbound copy of the just-sent user message; the user
message stored in the thread history keeps the original, unaugmented
text after the turn (no user message beyond it is ever stored). -/
theorem c8_augmentation_outbound_only
    (provider : List Msg → Option ProviderMsg)
    (parse : String → Option ArgMap)
    (createLead : String → String → String → String → String)
    (cfg : AssistantConfig) (s : Store) (t : String) (h0 : List Msg)
    (msg k : String)
    (ht : t ≠ "") (hf : storeFind s t = some h0)
    (hkb : cfg.knowledge_base = some k) (hk : k ≠ "")
    (hs : search_knowledge_base msg k ≠ "") :
    buildFirstMessages msg (h0 ++ [Msg.user msg]) cfg =
      (Msg.system cfg.system_prompt :: (h0 ++ [Msg.user msg])) ++
        [Msg.user (msg ++ "\n\nRelevant information from knowledge base:\n" ++
          search_knowledge_base msg k)] ∧
    ∃ rest,
      storeFind (chat provider parse createLead cfg s (some t)
          (some msg)).2 t =
        some ((h0 ++ [Msg.user msg]) ++ rest) ∧
      ∀ m ∈ rest, Msg.role m ≠ "user" := by
  constructor
  · simp only [buildFirstMessages, hkb]
    rw [if_neg hk, if_neg hs]
  · obtain ⟨rest, hr, hrole⟩ := runTurn_history_shape provider parse
      createLead cfg msg (h0 ++ [Msg.user msg])
    refine ⟨rest, ?_, hrole⟩
    simp only [chat, if_neg ht, hf, Option.getD_some]
    rw [storeFind_set, if_pos rfl, hr]

/-- C8 witness: with knowledge text "alpha line\nbeta" and user text
"alpha" the outbound copy carries the labeled snippet. -/
theorem c8_augmentation_outbound_only_witness :
    buildFirstMessages "alpha" ([] ++ [Msg.user "alpha"]) cfgK =
      (Msg.system cfgK.system_prompt :: ([] ++ [Msg.user "alpha"])) ++
        [Msg.user ("alpha" ++
          "\n\nRelevant information from knowledge base:\n" ++
          search_knowledge_base "alpha" "alpha line\nbeta")] :=
  (c8_augmentation_outbound_only pFail parse0 lead0 cfgK s0 "t" []
    "alpha" "alpha line\nbeta" (by decide) (by decide) rfl (by decide)
    (by decide)).1

/-! ### Claim C9 -/

theorem historyView_eq_filter_map (h : List Msg) :
    historyView h = (h.filter keepInHistory).map reducedEntry := by
  induction h with
  | nil => rfl
  | cons m rest ih =>
    cases m <;> simp [historyView, keepInHistory, reducedEntry, Msg.role,
      hasPendingCalls, List.filter, ih]

/-- C9: for a known thread id, `/history` returns exactly the stored
messages whose role is `user` or `assistant` and which carry no pending
tool calls, each reduced to its (role, content) pair, in stored order;
for a missing or unknown thread id it returns HTTP 400. -/
theorem c9_history_projection (s : Store) (tidO : Option String) :
    (∀ tid h, tidO = some tid → tid ≠ "" → storeFind s tid = some h →
      get_history s tidO =
        HistoryResult.ok ((h.filter keepInHistory).map reducedEntry)) ∧
    ((tidO = none ∨ ∃ t, tidO = some t ∧ storeFind s t = none) →
      get_history s tidO = HistoryResult.err "Invalid thread_id" 400) := by
  constructor
  · rintro tid h rfl ht hf
    simp only [get_history, if_neg ht, hf]
    rw [historyView_eq_filter_map]
  · rintro (rfl | ⟨t, rfl, hf⟩)
    · rfl
    · by_cases ht : t = ""
      · simp [get_history, ht]
      · simp [get_history, ht, hf]

/-- C9 witness: a thread holding one message of each kind projects to
its user message and its plain assistant message only; a missing thread
id yields the 400 error. -/
theorem c9_history_projection_witness :
    get_history s9 (some "t") =
      HistoryResult.ok [("user", some "a"), ("assistant", some "b")] ∧
    get_history s9 none = HistoryResult.err "Invalid thread_id" 400 :=
  ⟨Eq.trans ((c9_history_projection s9 (some "t")).1 "t"
      [Msg.system "sp", Msg.user "a", Msg.assistantCalls "x" [tcA],
        Msg.tool "\"ok\"" "c1", Msg.assistant (some "b")]
      rfl (by decide) (by decide)) (by decide),
   (c9_history_projection s9 none).2 (Or.inl rfl)⟩

/-! ### Claim C10 -/

/-- C10: a `/chat` request on a known thread whose body omits the message
field behaves exactly like one carrying the empty string: it is not
rejected with a 400, a user message with empty content is appended to the
thread history, and the turn proceeds as usual. -/
theorem c10_missing_message_accepted
    (provider : List Msg → Option ProviderMsg)
    (parse : String → Option ArgMap)
    (createLead : String → String → String → String → String)
    (cfg : AssistantConfig) (s : Store) (t : String) (h0 : List Msg)
    (ht : t ≠ "") (hf : storeFind s t = some h0) :
    chat provider parse createLead cfg s (some t) none =
      chat provider parse createLead cfg s (some t) (some "") ∧
    (∀ m st, (chat provider parse createLead cfg s (some t) none).1 =
      ChatResult.err m st → st = 500) ∧
    ∃ rest,
      storeFind (chat provider parse createLead cfg s (some t) none).2 t =
        some ((h0 ++ [Msg.user ""]) ++ rest) := by
  refine ⟨rfl, ?_, ?_⟩
  · intro m st hres
    simp only [chat, if_neg ht, hf, Option.getD_none] at hres
    exact runTurn_no_400 provider parse createLead cfg ""
      (h0 ++ [Msg.user ""]) m st hres
  · obtain ⟨rest, hr, _⟩ := runTurn_history_shape provider parse createLead
      cfg "" (h0 ++ [Msg.user ""])
    refine ⟨rest, ?_⟩
    simp only [chat, if_neg ht, hf, Option.getD_none]
    rw [storeFind_set, if_pos rfl, hr]

/-- C10 witness: on the known empty thread, omitting the message equals
sending the empty string. -/
theorem c10_missing_message_accepted_witness :
    chat pFail parse0 lead0 cfg0 s0 (some "t") none =
      chat pFail parse0 lead0 cfg0 s0 (some "t") (some "") :=
  (c10_missing_message_accepted pFail parse0 lead0 cfg0 s0 "t" []
    (by decide) (by decide)).1

/-! ### Claim C6 -/

/-- C6 counterexample: a store reachable through `/start` followed by one
`/chat` turn in which the provider requests two `create_lead` calls holds
a history whose second `tool` message sits immediately after the first
`tool` message — not immediately after the `assistant` message whose
tool-call id it answers — so the claimed invariant fails as literally
stated. -/
theorem c6_counterexample :
    Reachable cfg0 c6DemoStore ∧
    storeFind c6DemoStore "t" = some c6DemoHist ∧
    literalInv c6DemoHist = false :=
  ⟨Reachable.chatStep (start_conversation [] "t").2 provider2 parse0 lead0
      (some "t") (some "hi") (Reachable.startStep [] "t" Reachable.init),
   by decide, by decide⟩

/-- C6 (amended): in every conversation history reachable through the
endpoints, every `tool` message lies inside the contiguous run of tool
messages directly following the `assistant` message whose tool-call id
list contains the id the tool message answers. -/
theorem c6_tool_block_invariant (cfg : AssistantConfig) (s : Store)
    (hr : Reachable cfg s) :
    ∀ t h, storeFind s t = some h → blockInv h = true := by
  induction hr with
  | init => intro t h hf; simp [storeFind] at hf
  | startStep s' tid hr' ih =>
    intro t h hf
    simp only [start_conversation] at hf
    rw [storeFind_set] at hf
    by_cases hk : tid = t
    · rw [if_pos hk] at hf
      injection hf with hf
      subst hf
      rfl
    · rw [if_neg hk] at hf
      exact ih t h hf
  | chatStep s' provider parse createLead tidO msgO hr' ih =>
    intro t h hf
    rcases chat_snd_shape provider parse createLead cfg s' tidO msgO with
      heq | ⟨tid, h0, htid, hf0, heq⟩
    · rw [heq] at hf; exact ih t h hf
    · rw [heq] at hf
      rw [storeFind_set] at hf
      by_cases hk : tid = t
      · rw [if_pos hk] at hf
        injection hf with hf
        subst hf
        apply runTurn_blockOk
        have hh0 := ih tid h0 hf0
        rw [blockOk_append]
        simp [hh0, blockOk, blockInv] at *
        assumption
      · rw [if_neg hk] at hf
        exact ih t h hf
  | clearStep s' tidO hr' ih =>
    intro t h hf
    rcases clear_snd_shape s' tidO with heq | ⟨tid, heq⟩
    · rw [heq] at hf; exact ih t h hf
    · rw [heq] at hf
      rw [storeFind_set] at hf
      by_cases hk : tid = t
      · rw [if_pos hk] at hf
        injection hf with hf
        subst hf
        rfl
      · rw [if_neg hk] at hf
        exact ih t h hf

/-- C6 witness: the amended invariant evaluated on the concrete reachable
two-tool-call history. -/
theorem c6_tool_block_invariant_witness : blockInv c6DemoHist = true :=
  c6_tool_block_invariant cfg0 c6DemoStore
    (Reachable.chatStep (start_conversation [] "t").2 provider2 parse0
      lead0 (some "t") (some "hi")
      (Reachable.startStep [] "t" Reachable.init))
    "t" c6DemoHist (by decide)

end ChatBot
